import Mathlib

set_option maxHeartbeats 1000000

/- Verification development for the pptx translation tool in `src/pptx2md`
   (translate.py, markdown.py, extract.py, reinsert.py, ppt_generator.py).
   Python strings are modelled as lists of characters (`Str`); machine-level
   concerns (HTTP, files) are modelled as explicit oracles passed in. -/

abbrev Str := List Char

/-- Python `str.strip()` (both ends). -/
def stripChars (s : Str) : Str :=
  ((s.dropWhile Char.isWhitespace).reverse.dropWhile Char.isWhitespace).reverse

/-- Python `str.rstrip()`. -/
def rstripChars (s : Str) : Str :=
  (s.reverse.dropWhile Char.isWhitespace).reverse

/-- Python `str.lower()`. -/
def lowerChars (s : Str) : Str := s.map Char.toLower

/-- State of the in-batch duplicate cache built by `translate_texts`
    (`index_of` / `unique_texts` / `back_refs`, translate.py lines 82-92).
    The Python `dict` is modelled as an association list; keys are inserted
    only when absent, so lookup order is immaterial. -/
structure DedupAcc where
  index_of : List (Str × Nat)
  unique_texts : List Str
  back_refs : List Nat
deriving Repr, DecidableEq

/-- Body of the dedup loop `for t in texts: ...` (translate.py lines 85-92). -/
def dedupStep (acc : DedupAcc) (t : Str) : DedupAcc :=
  match acc.index_of.lookup t with
  | some i => { acc with back_refs := acc.back_refs ++ [i] }
  | none =>
    { index_of := (t, acc.unique_texts.length) :: acc.index_of
      unique_texts := acc.unique_texts ++ [t]
      back_refs := acc.back_refs ++ [acc.unique_texts.length] }

/-- The whole dedup pass of `translate_texts` (translate.py lines 82-92). -/
def collectDedup (texts : List Str) : DedupAcc :=
  texts.foldl dedupStep { index_of := [], unique_texts := [], back_refs := [] }

/-- Index of the first occurrence of `t` in `u` (`u.length` if absent);
    this is the value the `index_of` dictionary stores for key `t`. -/
def firstIdx (u : List Str) (t : Str) : Nat :=
  match u with
  | [] => 0
  | s :: rest => if s = t then 0 else firstIdx rest t + 1

theorem firstIdx_append_left {u : List Str} (v : List Str) {t : Str}
    (h : t ∈ u) : firstIdx (u ++ v) t = firstIdx u t := by
  induction u with
  | nil => cases h
  | cons s rest ih =>
    by_cases hs : s = t
    · simp [firstIdx, hs]
    · have ht : t ∈ rest := by
        rcases List.mem_cons.mp h with h1 | h1
        · exact absurd h1.symm hs
        · exact h1
      simp [firstIdx, hs, ih ht]

theorem firstIdx_append_self {u : List Str} {t : Str}
    (h : t ∉ u) : firstIdx (u ++ [t]) t = u.length := by
  induction u with
  | nil => simp [firstIdx]
  | cons s rest ih =>
    have hs : s ≠ t := fun he => h (he ▸ List.mem_cons_self s rest)
    have ht : t ∉ rest := fun hm => h (List.mem_cons_of_mem _ hm)
    simp [firstIdx, hs, ih ht]

theorem firstIdx_lt {u : List Str} {t : Str} (h : t ∈ u) :
    firstIdx u t < u.length := by
  induction u with
  | nil => cases h
  | cons s rest ih =>
    by_cases hs : s = t
    · simp [firstIdx, hs]
    · have ht : t ∈ rest := by
        rcases List.mem_cons.mp h with h1 | h1
        · exact absurd h1.symm hs
        · exact h1
      simp only [firstIdx, hs, if_false, List.length_cons]
      exact Nat.succ_lt_succ (ih ht)

theorem getD_firstIdx {u : List Str} {t : Str} (h : t ∈ u) (d : Str) :
    u.getD (firstIdx u t) d = t := by
  induction u with
  | nil => cases h
  | cons s rest ih =>
    by_cases hs : s = t
    · simp [firstIdx, hs]
    · have ht : t ∈ rest := by
        rcases List.mem_cons.mp h with h1 | h1
        · exact absurd h1.symm hs
        · exact h1
      rw [show firstIdx (s :: rest) t = firstIdx rest t + 1 from by
        simp [firstIdx, hs]]
      rw [List.getD_cons_succ]
      exact ih ht

/-- Loop invariant for the dedup pass: the dictionary is the graph of
    `firstIdx unique_texts`, `unique_texts` lists exactly the strings seen so
    far without repetition, and `back_refs` maps each processed text to its
    first-occurrence index. -/
def DedupInv (processed : List Str) (acc : DedupAcc) : Prop :=
  (∀ t : Str, acc.index_of.lookup t =
      if t ∈ acc.unique_texts then some (firstIdx acc.unique_texts t) else none) ∧
  (∀ t : Str, t ∈ acc.unique_texts ↔ t ∈ processed) ∧
  acc.unique_texts.Nodup ∧
  acc.back_refs = processed.map (firstIdx acc.unique_texts)

theorem dedupStep_inv {processed : List Str} {acc : DedupAcc} {t : Str}
    (h : DedupInv processed acc) :
    DedupInv (processed ++ [t]) (dedupStep acc t) := by
  obtain ⟨h1, h2, h3, h4⟩ := h
  by_cases hmem : t ∈ acc.unique_texts
  · have hl : acc.index_of.lookup t = some (firstIdx acc.unique_texts t) := by
      rw [h1 t, if_pos hmem]
    refine ⟨?_, ?_, ?_, ?_⟩ <;> simp only [dedupStep, hl]
    · exact h1
    · intro s
      rw [h2 s]
      constructor
      · intro hs; exact List.mem_append_left _ hs
      · intro hs
        rcases List.mem_append.mp hs with hs | hs
        · exact hs
        · have : s = t := by simpa using hs
          exact this ▸ (h2 t).mp hmem
    · exact h3
    · simp [h4]
  · have hl : acc.index_of.lookup t = none := by
      rw [h1 t, if_neg hmem]
    refine ⟨?_, ?_, ?_, ?_⟩ <;> simp only [dedupStep, hl]
    · intro s
      by_cases hs : t = s
      · subst hs
        have : firstIdx (acc.unique_texts ++ [t]) t = acc.unique_texts.length :=
          firstIdx_append_self hmem
        simp [List.lookup, this]
      · have hbeq : (s == t) = false := beq_false_of_ne (fun he => hs he.symm)
        simp only [List.lookup, hbeq]
        rw [h1 s]
        by_cases hsu : s ∈ acc.unique_texts
        · rw [if_pos hsu, if_pos (List.mem_append_left _ hsu),
            firstIdx_append_left _ hsu]
        · rw [if_neg hsu, if_neg]
          intro hc
          rcases List.mem_append.mp hc with hc | hc
          · exact hsu hc
          · have hst : s = t := by simpa using hc
            exact hs hst.symm
    · intro s
      have hss := h2 s
      simp only [List.mem_append, List.mem_singleton]
      tauto
    · simp [List.nodup_append, h3, hmem]
    · simp only [List.map_append, List.map_cons, List.map_nil]
      congr 1
      · rw [h4]
        apply List.map_congr_left
        intro p hp
        exact (firstIdx_append_left _ ((h2 p).mpr hp)).symm
      · simp [firstIdx_append_self hmem]

theorem foldl_dedup_inv (rest : List Str) {processed : List Str}
    {acc : DedupAcc} (h : DedupInv processed acc) :
    DedupInv (processed ++ rest) (rest.foldl dedupStep acc) := by
  induction rest generalizing processed acc with
  | nil => simpa using h
  | cons t rest ih =>
    have h2 : DedupInv (processed ++ [t]) (dedupStep acc t) := dedupStep_inv h
    simpa using ih h2

theorem collectDedup_inv (texts : List Str) :
    DedupInv texts (collectDedup texts) := by
  have h0 : DedupInv [] { index_of := [], unique_texts := [], back_refs := [] } := by
    refine ⟨?_, ?_, ?_, ?_⟩ <;> simp [List.lookup]
  simpa using foldl_dedup_inv texts h0

/-- One item of the decoded `result` JSON array (translate.py lines 64-71):
    a string, `null` (normalised to the empty string), or any other JSON
    value together with its Python `str(...)` rendering. -/
inductive JsonItem
  | jstr (s : Str)
  | jnull
  | jother (rendered : Str)
deriving Repr, DecidableEq

/-- Normalisation applied to each `result` item (translate.py lines 65-71). -/
def normalizeItem : JsonItem → Str
  | .jstr s => s
  | .jnull => []
  | .jother rendered => rendered

/-- Shape of `json.loads(content)` as consumed by `_decode_translation_payload`
    (translate.py lines 51-73): parse failure, a non-object root, an object
    whose `result` is missing or not a list, or an object with a `result`
    list.  JSON parsing itself is external; this is its observable outcome. -/
inductive ParsedPayload
  | notJson
  | nonObjectRoot
  | missingResultArray
  | resultArray (items : List JsonItem)
deriving Repr, DecidableEq

/-- The three `ValueError` messages of `_decode_translation_payload`. -/
inductive DecodeError
  | invalidJson
  | rootNotObject
  | missingResult
deriving Repr, DecidableEq

/-- `_decode_translation_payload` (translate.py lines 51-73). -/
def decodeTranslationPayload : ParsedPayload → Except DecodeError (List Str)
  | .notJson => .error .invalidJson
  | .nonObjectRoot => .error .rootNotObject
  | .missingResultArray => .error .missingResult
  | .resultArray items => .ok (items.map normalizeItem)

/-- One chat-completion reply.  `content` is `resp.choices[0].message.content`
    (`none` models a null content, replaced by the two-character empty-object
    string, translate.py line 138); `parsed` is the JSON parse of the stripped
    effective content, supplied by the parser oracle. -/
structure ModelReply where
  content : Option Str
  parsed : ParsedPayload
deriving Repr, DecidableEq

/-- The literal fallback text used when the reply content is null. -/
def emptyObjectText : Str := "\x7b\x7d".data

/-- `(resp.choices[0].message.content or "{}").strip()` (translate.py 138). -/
def effectiveContent (r : ModelReply) : Str :=
  stripChars (r.content.getD emptyObjectText)

structure ChatMessage where
  role : Str
  content : Str
deriving Repr, DecidableEq

/-- translate.py line 48. -/
def MAX_TRANSLATION_RETRIES : Nat := 1

/-- The corrective system message appended before the retry
    (translate.py lines 153-156); the wording is paraphrased. -/
def correctiveMessage : ChatMessage :=
  { role := "system".data
    content := ("Your previous reply was not valid JSON. " ++
      "Return only a JSON object with a result array of the correct length.").data }

/-- The two messages of the first request (translate.py lines 124-127); the
    user prompt text is built by external string formatting, abstracted here. -/
def initialMessages (prompt : Str) : List ChatMessage :=
  [{ role := "system".data
     content := "You are a translator. Output only valid JSON.".data },
   { role := "user".data, content := prompt }]

/-- The fatal errors `translate_texts` can raise (translate.py lines 144-157):
    the length-mismatch guidance, the parse failure carrying `content[:2000]`,
    and the unreachable final raise after the loop. -/
inductive TranslationError
  | lengthMismatch
  | parseFailure (snippet : Str)
  | retriesExhausted
deriving Repr, DecidableEq

/-- Observable outcome of one `translate_texts` call: its return value or
    error, the message list of every API request issued (in order), and the
    unique-string payload embedded in each request (`source_payload`). -/
structure TranslateOutcome where
  result : Except TranslationError (List Str)
  requests : List (List ChatMessage)
  sourcePayload : List Str

/-- The retry loop `for attempt in range(MAX_TRANSLATION_RETRIES + 1)`
    (translate.py lines 129-157).  `remaining` counts the iterations left
    (`MAX_TRANSLATION_RETRIES + 1 - attempt`); `decoded.getD i []` is the
    in-range indexing `decoded[i]` of line 143. -/
def translateAttempts (uniqueTexts : List Str) (backRefs : List Nat)
    (oracle : Nat → ModelReply) (messages : List ChatMessage)
    (attempt : Nat) (sentSoFar : List (List ChatMessage)) :
    Nat → TranslateOutcome
  | 0 =>
    { result := .error .retriesExhausted
      requests := sentSoFar, sourcePayload := uniqueTexts }
  | remaining + 1 =>
    match decodeTranslationPayload (oracle attempt).parsed with
    | .ok decoded =>
      if decoded.length ≠ uniqueTexts.length then
        { result := .error .lengthMismatch
          requests := sentSoFar ++ [messages], sourcePayload := uniqueTexts }
      else
        { result := .ok (backRefs.map fun i => decoded.getD i [])
          requests := sentSoFar ++ [messages], sourcePayload := uniqueTexts }
    | .error _ =>
      if MAX_TRANSLATION_RETRIES ≤ attempt then
        { result := .error (.parseFailure ((effectiveContent (oracle attempt)).take 2000))
          requests := sentSoFar ++ [messages], sourcePayload := uniqueTexts }
      else
        translateAttempts uniqueTexts backRefs oracle
          (messages ++ [correctiveMessage]) (attempt + 1)
          (sentSoFar ++ [messages]) remaining

/-- `translate_texts(texts, config)` (translate.py lines 76-157), with the
    chat client modelled as an oracle from attempt number to reply and the
    built prompt abstracted as `prompt`. -/
def translate_texts (prompt : Str) (oracle : Nat → ModelReply)
    (texts : List Str) : TranslateOutcome :=
  if texts = [] then
    { result := .ok [], requests := [], sourcePayload := [] }
  else
    translateAttempts (collectDedup texts).unique_texts
      (collectDedup texts).back_refs oracle
      (initialMessages prompt) 0 [] (MAX_TRANSLATION_RETRIES + 1)

/-- The batch slices of the pipeline loop `for start in range(0, total,
    safe_batch_size)` in `create_translated_presentation_v2`
    (ppt_generator.py lines 472-487): batch `k` is
    `texts[k*safe : k*safe + safe]`, with `safe = max(1, batch_size)` and the
    batch count `(total + safe - 1) // safe` as computed on line 476. -/
def pipelineBatches (texts : List Str) (batchSize : Nat) : List (List Str) :=
  let safe := max 1 batchSize
  (List.range ((texts.length + safe - 1) / safe)).map
    (fun k => (texts.drop (k * safe)).take safe)

/-- The sequential batch loop (ppt_generator.py lines 478-489): each batch is
    translated by a fresh `translate_texts` call and results are concatenated;
    an error aborts the run.  The second component records every source string
    occurrence transmitted to the translator: the unique payload of a call,
    once per API request it issued. -/
def pipelineRun (prompt : Str) (oracle : Nat → Nat → ModelReply) :
    List (List Str) → Nat → Except TranslationError (List Str) × List Str
  | [], _ => (.ok [], [])
  | b :: rest, k =>
    let o := translate_texts prompt (oracle k) b
    let sentHere := (List.replicate o.requests.length o.sourcePayload).flatten
    match o.result with
    | .error e => (.error e, sentHere)
    | .ok out =>
      match pipelineRun prompt oracle rest (k + 1) with
      | (.error e, sentRest) => (.error e, sentHere ++ sentRest)
      | (.ok outs, sentRest) => (.ok (out ++ outs), sentHere ++ sentRest)

/-- The translation phase of `create_translated_presentation_v2`
    (ppt_generator.py lines 469-489). -/
def pipelineTranslate (prompt : Str) (oracle : Nat → Nat → ModelReply)
    (batchSize : Nat) (texts : List Str) :
    Except TranslationError (List Str) × List Str :=
  pipelineRun prompt oracle (pipelineBatches texts batchSize) 0

theorem translateAttempts_step_ok (uniq : List Str) (refs : List Nat)
    (oracle : Nat → ModelReply) (msgs : List ChatMessage) (attempt : Nat)
    (sent : List (List ChatMessage)) (rem : Nat) {decoded : List Str}
    (hdec : decodeTranslationPayload (oracle attempt).parsed = .ok decoded)
    (hlen : decoded.length = uniq.length) :
    translateAttempts uniq refs oracle msgs attempt sent (rem + 1) =
      { result := .ok (refs.map fun i => decoded.getD i [])
        requests := sent ++ [msgs], sourcePayload := uniq } := by
  simp [translateAttempts, hdec, hlen]

theorem translateAttempts_step_mismatch (uniq : List Str) (refs : List Nat)
    (oracle : Nat → ModelReply) (msgs : List ChatMessage) (attempt : Nat)
    (sent : List (List ChatMessage)) (rem : Nat) {decoded : List Str}
    (hdec : decodeTranslationPayload (oracle attempt).parsed = .ok decoded)
    (hlen : decoded.length ≠ uniq.length) :
    translateAttempts uniq refs oracle msgs attempt sent (rem + 1) =
      { result := .error .lengthMismatch
        requests := sent ++ [msgs], sourcePayload := uniq } := by
  simp [translateAttempts, hdec, hlen]

theorem translateAttempts_step_retry (uniq : List Str) (refs : List Nat)
    (oracle : Nat → ModelReply) (msgs : List ChatMessage) (attempt : Nat)
    (sent : List (List ChatMessage)) (rem : Nat) {e : DecodeError}
    (hdec : decodeTranslationPayload (oracle attempt).parsed = .error e)
    (hatt : attempt < MAX_TRANSLATION_RETRIES) :
    translateAttempts uniq refs oracle msgs attempt sent (rem + 1) =
      translateAttempts uniq refs oracle (msgs ++ [correctiveMessage])
        (attempt + 1) (sent ++ [msgs]) rem := by
  simp [translateAttempts, hdec, Nat.not_le_of_lt hatt]

theorem translateAttempts_step_fail (uniq : List Str) (refs : List Nat)
    (oracle : Nat → ModelReply) (msgs : List ChatMessage) (attempt : Nat)
    (sent : List (List ChatMessage)) (rem : Nat) {e : DecodeError}
    (hdec : decodeTranslationPayload (oracle attempt).parsed = .error e)
    (hatt : MAX_TRANSLATION_RETRIES ≤ attempt) :
    translateAttempts uniq refs oracle msgs attempt sent (rem + 1) =
      { result := .error
          (.parseFailure ((effectiveContent (oracle attempt)).take 2000))
        requests := sent ++ [msgs], sourcePayload := uniq } := by
  simp [translateAttempts, hdec, hatt]

theorem translateAttempts_sourcePayload (uniq : List Str) (refs : List Nat)
    (oracle : Nat → ModelReply) (msgs : List ChatMessage) (attempt : Nat)
    (sent : List (List ChatMessage)) (rem : Nat) :
    (translateAttempts uniq refs oracle msgs attempt sent rem).sourcePayload =
      uniq := by
  induction rem generalizing msgs attempt sent with
  | zero => simp [translateAttempts]
  | succ rem ih =>
    rcases hdec : decodeTranslationPayload (oracle attempt).parsed with e | decoded
    · by_cases hatt : MAX_TRANSLATION_RETRIES ≤ attempt
      · rw [translateAttempts_step_fail uniq refs oracle msgs attempt sent rem hdec hatt]
      · rw [translateAttempts_step_retry uniq refs oracle msgs attempt sent rem hdec
          (Nat.lt_of_not_le hatt)]
        exact ih _ _ _
    · by_cases hlen : decoded.length = uniq.length
      · rw [translateAttempts_step_ok uniq refs oracle msgs attempt sent rem hdec hlen]
      · rw [translateAttempts_step_mismatch uniq refs oracle msgs attempt sent rem hdec hlen]

theorem translateAttempts_ok {uniq : List Str} {refs : List Nat}
    {oracle : Nat → ModelReply} {msgs : List ChatMessage} {attempt : Nat}
    {sent : List (List ChatMessage)} {rem : Nat} {out : List Str}
    (h : (translateAttempts uniq refs oracle msgs attempt sent rem).result =
      .ok out) :
    ∃ decoded : List Str, decoded.length = uniq.length ∧
      out = refs.map fun i => decoded.getD i [] := by
  induction rem generalizing msgs attempt sent with
  | zero => simp [translateAttempts] at h
  | succ rem ih =>
    rcases hdec : decodeTranslationPayload (oracle attempt).parsed with e | decoded
    · by_cases hatt : MAX_TRANSLATION_RETRIES ≤ attempt
      · rw [translateAttempts_step_fail uniq refs oracle msgs attempt sent rem hdec hatt]
          at h
        simp at h
      · rw [translateAttempts_step_retry uniq refs oracle msgs attempt sent rem hdec
          (Nat.lt_of_not_le hatt)] at h
        exact ih h
    · by_cases hlen : decoded.length = uniq.length
      · rw [translateAttempts_step_ok uniq refs oracle msgs attempt sent rem hdec hlen]
          at h
        exact ⟨decoded, hlen, (Except.ok.inj h).symm⟩
      · rw [translateAttempts_step_mismatch uniq refs oracle msgs attempt sent rem hdec
          hlen] at h
        simp at h

theorem getD_map_of_lt {α β : Type} (f : α → β) (l : List α) {i : Nat}
    (h : i < l.length) (d : β) (d' : α) :
    (l.map f).getD i d = f (l.getD i d') := by
  induction l generalizing i with
  | nil => simp at h
  | cons a rest ih =>
    cases i with
    | zero => simp
    | succ i =>
      simp only [List.map_cons, List.getD_cons_succ]
      exact ih (by simpa using h) 

theorem getD_mem {α : Type} {l : List α} {i : Nat} (h : i < l.length) (d : α) :
    l.getD i d ∈ l := by
  induction l generalizing i with
  | nil => simp at h
  | cons a rest ih =>
    cases i with
    | zero => simp
    | succ i =>
      simp only [List.getD_cons_succ]
      exact List.mem_cons_of_mem _ (ih (by simpa using h))

theorem count_one_of_nodup_mem {l : List Str} {t : Str}
    (hn : l.Nodup) (ht : t ∈ l) : l.count t = 1 := by
  induction l with
  | nil => cases ht
  | cons a rest ih =>
    obtain ⟨hna, hnr⟩ := List.nodup_cons.mp hn
    rcases List.mem_cons.mp ht with h | h
    · subst h
      have hz : rest.count t = 0 := List.count_eq_zero.mpr hna
      simp [List.count_cons, hz]
    · have hne2 : t ≠ a := fun he => hna (he ▸ h)
      simp [List.count_cons, hne2, ih hnr h]

/-- C1 (amended): within one `translate_texts` call, the request payload
    (`source_payload`) lists each distinct input string exactly once, contains
    exactly the input strings, and any successful result assigns identical
    translations to equal input strings.  (Across the batched pipeline,
    deduplication is only per batch — see the counterexample.) -/
theorem translate_texts_dedup_consistent (prompt : Str)
    (oracle : Nat → ModelReply) (texts : List Str) :
    (∀ t ∈ texts, ((translate_texts prompt oracle texts).sourcePayload).count t = 1) ∧
    (∀ t : Str, t ∈ (translate_texts prompt oracle texts).sourcePayload ↔ t ∈ texts) ∧
    (∀ out : List Str, (translate_texts prompt oracle texts).result = .ok out →
      out.length = texts.length ∧
      ∀ i j : Nat, i < texts.length → j < texts.length →
        texts.getD i [] = texts.getD j [] → out.getD i [] = out.getD j []) := by
  by_cases hne : texts = []
  · subst hne
    refine ⟨by simp, by simp [translate_texts], ?_⟩
    intro out hout
    simp only [translate_texts, if_pos rfl] at hout
    have hout2 : out = [] := (Except.ok.inj hout).symm
    subst hout2
    exact ⟨rfl, fun i j hi => by simp at hi⟩
  · obtain ⟨hinv1, hinv2, hnodup, hrefs⟩ := collectDedup_inv texts
    have hur : translate_texts prompt oracle texts =
        translateAttempts (collectDedup texts).unique_texts
          (collectDedup texts).back_refs oracle (initialMessages prompt) 0 []
          (MAX_TRANSLATION_RETRIES + 1) := by
      simp [translate_texts, hne]
    have hpay : (translate_texts prompt oracle texts).sourcePayload =
        (collectDedup texts).unique_texts := by
      rw [hur]
      exact translateAttempts_sourcePayload _ _ _ _ _ _ _
    refine ⟨?_, ?_, ?_⟩
    · intro t ht
      rw [hpay]
      exact count_one_of_nodup_mem hnodup ((hinv2 t).mpr ht)
    · intro t
      rw [hpay]
      exact hinv2 t
    · intro out hout
      rw [hur] at hout
      obtain ⟨decoded, hdl, hdo⟩ := translateAttempts_ok hout
      subst hdo
      rw [hrefs]
      refine ⟨by simp, ?_⟩
      intro i j hi hj hij
      have e1 : ∀ k : Nat, k < texts.length →
          ((texts.map (firstIdx (collectDedup texts).unique_texts)).map
            (fun i => decoded.getD i [])).getD k [] =
          decoded.getD
            (firstIdx (collectDedup texts).unique_texts (texts.getD k [])) [] := by
        intro k hk
        rw [getD_map_of_lt (fun i => decoded.getD i [])
            (texts.map (firstIdx (collectDedup texts).unique_texts))
            (by simpa using hk) [] 0,
          getD_map_of_lt (firstIdx (collectDedup texts).unique_texts)
            texts hk 0 []]
      rw [e1 i hi, e1 j hj, hij]

/-- C2: for a non-empty input and a first reply decoding to a result array of
    the unique-payload length, `translate_texts` succeeds with a list of the
    input length whose element at `i` is the decoded translation at the
    first-occurrence index of `texts[i]`, that index addressing exactly
    `texts[i]` inside the unique payload. -/
theorem translate_texts_order_and_length (prompt : Str)
    (oracle : Nat → ModelReply) (texts : List Str) (items : List JsonItem)
    (hne : texts ≠ [])
    (h0 : (oracle 0).parsed = .resultArray items)
    (hlen : items.length = (collectDedup texts).unique_texts.length) :
    ∃ out : List Str,
      (translate_texts prompt oracle texts).result = .ok out ∧
      out.length = texts.length ∧
      ∀ i : Nat, i < texts.length →
        out.getD i [] = (items.map normalizeItem).getD
          (firstIdx (collectDedup texts).unique_texts (texts.getD i [])) [] ∧
        (collectDedup texts).unique_texts.getD
          (firstIdx (collectDedup texts).unique_texts (texts.getD i [])) [] =
          texts.getD i [] := by
  obtain ⟨hinv1, hinv2, hnodup, hrefs⟩ := collectDedup_inv texts
  have hdec : decodeTranslationPayload (oracle 0).parsed =
      .ok (items.map normalizeItem) := by rw [h0]; rfl
  have hlen2 : (items.map normalizeItem).length =
      (collectDedup texts).unique_texts.length := by simpa using hlen
  have hstep := translateAttempts_step_ok (collectDedup texts).unique_texts
    (collectDedup texts).back_refs oracle (initialMessages prompt) 0 []
    MAX_TRANSLATION_RETRIES hdec hlen2
  have hres : (translate_texts prompt oracle texts).result =
      .ok ((collectDedup texts).back_refs.map
        fun i => (items.map normalizeItem).getD i []) := by
    simp only [translate_texts, if_neg hne]
    rw [hstep]
  refine ⟨_, hres, ?_, ?_⟩
  · rw [hrefs]; simp
  · intro i hi
    have hmem : texts.getD i [] ∈ (collectDedup texts).unique_texts :=
      (hinv2 _).mpr (getD_mem hi [])
    constructor
    · rw [hrefs,
        getD_map_of_lt (fun i => (items.map normalizeItem).getD i [])
          (texts.map (firstIdx (collectDedup texts).unique_texts))
          (by simpa using hi) [] 0,
        getD_map_of_lt (firstIdx (collectDedup texts).unique_texts)
          texts hi 0 []]
    · exact getD_firstIdx hmem []

/-- C3: if the first reply decodes to a result array whose length differs
    from the unique payload, `translate_texts` fails with the length-mismatch
    error after exactly one request: no retry, no partial result. -/
theorem translate_texts_length_mismatch_fails (prompt : Str)
    (oracle : Nat → ModelReply) (texts : List Str) (items : List JsonItem)
    (hne : texts ≠ [])
    (h0 : (oracle 0).parsed = .resultArray items)
    (hlen : items.length ≠ (collectDedup texts).unique_texts.length) :
    (translate_texts prompt oracle texts).result = .error .lengthMismatch ∧
    (translate_texts prompt oracle texts).requests = [initialMessages prompt] := by
  have hdec : decodeTranslationPayload (oracle 0).parsed =
      .ok (items.map normalizeItem) := by rw [h0]; rfl
  have hlen2 : (items.map normalizeItem).length ≠
      (collectDedup texts).unique_texts.length := by simpa using hlen
  have hstep := translateAttempts_step_mismatch (collectDedup texts).unique_texts
    (collectDedup texts).back_refs oracle (initialMessages prompt) 0 []
    MAX_TRANSLATION_RETRIES hdec hlen2
  constructor <;> (simp only [translate_texts, if_neg hne]; rw [hstep]) <;> simp

/-- C4: if the first reply is malformed, `translate_texts` retries exactly
    once with the corrective instruction appended to the conversation; if the
    retry is malformed too, it fails with the parse error carrying the first
    2000 characters of the second bad response. -/
theorem translate_texts_parse_retry_then_fail (prompt : Str)
    (oracle : Nat → ModelReply) (texts : List Str) (e0 e1 : DecodeError)
    (hne : texts ≠ [])
    (h0 : decodeTranslationPayload (oracle 0).parsed = .error e0)
    (h1 : decodeTranslationPayload (oracle 1).parsed = .error e1) :
    (translate_texts prompt oracle texts).result =
      .error (.parseFailure ((effectiveContent (oracle 1)).take 2000)) ∧
    (translate_texts prompt oracle texts).requests =
      [initialMessages prompt, initialMessages prompt ++ [correctiveMessage]] := by
  have hretry := translateAttempts_step_retry (collectDedup texts).unique_texts
    (collectDedup texts).back_refs oracle (initialMessages prompt) 0 []
    MAX_TRANSLATION_RETRIES h0 (by decide)
  have hfail := translateAttempts_step_fail (collectDedup texts).unique_texts
    (collectDedup texts).back_refs oracle
    (initialMessages prompt ++ [correctiveMessage]) 1
    ([] ++ [initialMessages prompt]) 0 h1 (by decide)
  constructor <;>
      (simp only [translate_texts, if_neg hne];
       rw [hretry];
       simp only [Nat.zero_add];
       rw [show MAX_TRANSLATION_RETRIES = 0 + 1 from rfl];
       rw [hfail]) <;>
    simp

/-- Per-batch translator oracle used to exhibit cross-batch duplication:
    every request is answered with a well-formed one-element result whose
    text depends on the batch number. -/
def crossBatchOracle : Nat → Nat → ModelReply := fun k _ =>
  { content := some ("ok".data)
    parsed := .resultArray
      [.jstr (if k = 0 then ("X".data) else ("Y".data))] }

/-- C1 counterexample: pushing `["A", "A"]` through the batched pipeline with
    batch size 1 transmits the string `"A"` to the translator twice (once per
    batch) and the two occurrences receive different translated values. -/
theorem pipeline_dedup_counterexample :
    (pipelineTranslate [] crossBatchOracle 1 ["A".data, "A".data]).2 =
      ["A".data, "A".data] ∧
    (pipelineTranslate [] crossBatchOracle 1 ["A".data, "A".data]).2.count
      ("A".data) = 2 ∧
    (pipelineTranslate [] crossBatchOracle 1 ["A".data, "A".data]).1 =
      .ok ["X".data, "Y".data] ∧
    ("X".data : Str) ≠ ("Y".data : Str) :=
  ⟨rfl, rfl, rfl, by decide⟩

def dedupWitnessTexts : List Str := ["Hello".data, "World".data, "Hello".data]

def dedupWitnessOracle : Nat → ModelReply := fun _ =>
  { content := some ("ok".data)
    parsed := .resultArray [.jstr ("AN".data), .jstr ("SE".data)] }

theorem translate_texts_dedup_consistent_witness :
    (∀ t ∈ dedupWitnessTexts,
      ((translate_texts [] dedupWitnessOracle dedupWitnessTexts).sourcePayload).count
        t = 1) ∧
    (∀ t : Str,
      t ∈ (translate_texts [] dedupWitnessOracle dedupWitnessTexts).sourcePayload ↔
        t ∈ dedupWitnessTexts) ∧
    (∀ out : List Str,
      (translate_texts [] dedupWitnessOracle dedupWitnessTexts).result = .ok out →
      out.length = dedupWitnessTexts.length ∧
      ∀ i j : Nat, i < dedupWitnessTexts.length → j < dedupWitnessTexts.length →
        dedupWitnessTexts.getD i [] = dedupWitnessTexts.getD j [] →
        out.getD i [] = out.getD j []) :=
  translate_texts_dedup_consistent [] dedupWitnessOracle dedupWitnessTexts

theorem translate_texts_order_and_length_witness :
    ∃ out : List Str,
      (translate_texts [] dedupWitnessOracle dedupWitnessTexts).result = .ok out ∧
      out.length = dedupWitnessTexts.length ∧
      ∀ i : Nat, i < dedupWitnessTexts.length →
        out.getD i [] =
          (([JsonItem.jstr ("AN".data), JsonItem.jstr ("SE".data)]).map
            normalizeItem).getD
            (firstIdx (collectDedup dedupWitnessTexts).unique_texts
              (dedupWitnessTexts.getD i [])) [] ∧
        (collectDedup dedupWitnessTexts).unique_texts.getD
          (firstIdx (collectDedup dedupWitnessTexts).unique_texts
            (dedupWitnessTexts.getD i [])) [] =
          dedupWitnessTexts.getD i [] :=
  translate_texts_order_and_length [] dedupWitnessOracle dedupWitnessTexts
    [.jstr ("AN".data), .jstr ("SE".data)] (by decide) rfl (by decide)

def mismatchOracle : Nat → ModelReply := fun _ =>
  { content := some ("ok".data)
    parsed := .resultArray [.jstr ("only-one".data)] }

theorem translate_texts_length_mismatch_witness :
    (translate_texts [] mismatchOracle ["alpha".data, "beta".data]).result =
      .error .lengthMismatch ∧
    (translate_texts [] mismatchOracle ["alpha".data, "beta".data]).requests =
      [initialMessages []] :=
  translate_texts_length_mismatch_fails [] mismatchOracle
    ["alpha".data, "beta".data] [.jstr ("only-one".data)]
    (by decide) rfl (by decide)

def malformedOracle : Nat → ModelReply := fun i =>
  if i = 0 then { content := some ("first bad reply".data), parsed := .notJson }
  else { content := some ("second bad reply".data), parsed := .nonObjectRoot }

theorem translate_texts_parse_retry_witness :
    (translate_texts [] malformedOracle ["x".data]).result =
      .error (.parseFailure ((effectiveContent (malformedOracle 1)).take 2000)) ∧
    (translate_texts [] malformedOracle ["x".data]).requests =
      [initialMessages [], initialMessages [] ++ [correctiveMessage]] :=
  translate_texts_parse_retry_then_fail [] malformedOracle ["x".data]
    .invalidJson .rootNotObject (by decide) rfl rfl

/-- reinsert.py lines 11-15. -/
structure OverflowPolicy where
  max_chars_per_paragraph : Nat := 180
  min_font_size_pt : Nat := 12
  reduce_step_pt : Nat := 1
deriving Repr, DecidableEq

/-- A text run as touched by the reinsertion code: its text and its explicit
    font size in points (`none` when the run carries no explicit size). -/
structure RunText where
  text : Str
  size : Option Nat
deriving Repr, DecidableEq

structure ParagraphBox where
  runs : List RunText
deriving Repr, DecidableEq

structure TextFrameBox where
  paragraphs : List ParagraphBox
deriving Repr, DecidableEq

/-- Modelled from the spec: `shorten_line`, which reinsert.py imports from
    translate.py but which is absent from the source (deleted).  Spec 4.6
    step 1: a candidate line longer than the budget is shortened via an
    external rephrasing call constrained to the character budget, degrading
    to hard truncation at the character limit when the call fails; a line
    within budget is returned unchanged. -/
def shorten_line (rephrase : Str → Nat → Option Str) (text : Str)
    (budget : Nat) : Str :=
  if text.length ≤ budget then text
  else
    match rephrase text budget with
    | some s => s
    | none => text.take budget

/-- `_reduce_font_size` (reinsert.py lines 17-22): every run's size becomes
    `max(min_pt, int(size) - step_pt)`, with 18 substituted when the run has
    no (or a zero) explicit size. -/
def reduceFontSize (tf : TextFrameBox) (minPt stepPt : Nat) : TextFrameBox :=
  { paragraphs := tf.paragraphs.map fun p =>
      { runs := p.runs.map fun r =>
          { text := r.text
            size := some (max minPt
              ((match r.size with
                | some s => if s ≠ 0 then s else 18
                | none => 18) - stepPt)) } } }

/-- The sanitise-and-shorten pass of `_apply_text_to_shape`
    (reinsert.py lines 28-34); lines are never `None` in this model, so the
    `"" if line is None else str(line)` coercion is the identity. -/
def safeShortenedLines (rephrase : Str → Nat → Option Str) (lines : List Str)
    (policy : OverflowPolicy) : List Str :=
  let s := lines.map fun line =>
    shorten_line rephrase line policy.max_chars_per_paragraph
  if s = [] then [[]] else s

/-- `_apply_text_to_shape` (reinsert.py lines 24-41): `tf.clear()` leaves one
    empty paragraph, the loop writes one paragraph per safe line (assigning
    `p.text` creates a single run without an explicit size), and if any
    written line still exceeds the budget the font size of every run in the
    frame is reduced uniformly. -/
def applyTextToShape (rephrase : Str → Nat → Option Str) (lines : List Str)
    (policy : OverflowPolicy) : TextFrameBox :=
  let safeLines := safeShortenedLines rephrase lines policy
  let tf : TextFrameBox :=
    { paragraphs := safeLines.map fun t =>
        { runs := [{ text := t, size := none }] } }
  if safeLines.any (fun l => policy.max_chars_per_paragraph < l.length) then
    reduceFontSize tf policy.min_font_size_pt policy.reduce_step_pt
  else tf

/-- C5: overlong lines degrade to hard truncation within the budget when the
    rephrasing call fails, and after writing either every line in the shape
    is within the budget, or every run's font size has been reduced by the
    fixed step from its 18pt default and never set below the floor. -/
theorem apply_text_overflow_mitigation
    (rephrase : Str → Nat → Option Str) (lines : List Str)
    (policy : OverflowPolicy)
    (hstep : 1 ≤ policy.reduce_step_pt)
    (hfloor : policy.min_font_size_pt + policy.reduce_step_pt ≤ 18) :
    (∀ line : Str, policy.max_chars_per_paragraph < line.length →
      rephrase line policy.max_chars_per_paragraph = none →
      shorten_line rephrase line policy.max_chars_per_paragraph =
        line.take policy.max_chars_per_paragraph ∧
      (shorten_line rephrase line policy.max_chars_per_paragraph).length ≤
        policy.max_chars_per_paragraph) ∧
    ((∀ p ∈ (applyTextToShape rephrase lines policy).paragraphs,
        ∀ r ∈ p.runs, r.text.length ≤ policy.max_chars_per_paragraph) ∨
      (∀ p ∈ (applyTextToShape rephrase lines policy).paragraphs,
        ∀ r ∈ p.runs,
          r.size = some (max policy.min_font_size_pt
            (18 - policy.reduce_step_pt)) ∧
          policy.min_font_size_pt ≤
            max policy.min_font_size_pt (18 - policy.reduce_step_pt) ∧
          max policy.min_font_size_pt (18 - policy.reduce_step_pt) < 18)) := by
  constructor
  · intro line hlong hfailR
    have hnle : ¬ line.length ≤ policy.max_chars_per_paragraph :=
      not_le.mpr hlong
    constructor
    · simp [shorten_line, hnle, hfailR]
    · simp only [shorten_line, hnle, if_false, hfailR]
      have hlt : (line.take policy.max_chars_per_paragraph).length =
          min policy.max_chars_per_paragraph line.length :=
        List.length_take _ _
      omega
  · by_cases hov : (safeShortenedLines rephrase lines policy).any
        (fun l => policy.max_chars_per_paragraph < l.length)
    · right
      have hle : policy.min_font_size_pt ≤ 18 - policy.reduce_step_pt := by
        omega
      intro p hp r hr
      have hres : applyTextToShape rephrase lines policy =
          reduceFontSize
            { paragraphs := (safeShortenedLines rephrase lines policy).map
                fun t => { runs := [{ text := t, size := none }] } }
            policy.min_font_size_pt policy.reduce_step_pt := by
        simp [applyTextToShape, hov]
      rw [hres] at hp
      simp only [reduceFontSize, List.mem_map] at hp
      obtain ⟨p0, hp0, rfl⟩ := hp
      simp only [List.mem_map] at hr
      obtain ⟨r0, hr0, rfl⟩ := hr
      obtain ⟨t, ht, rfl⟩ := hp0
      have hr0eq : r0 = { text := t, size := none } := by simpa using hr0
      subst hr0eq
      refine ⟨rfl, Nat.le_max_left _ _, ?_⟩
      rw [Nat.max_eq_right hle]
      omega
    · left
      intro p hp r hr
      have hres : applyTextToShape rephrase lines policy =
          { paragraphs := (safeShortenedLines rephrase lines policy).map
              fun t => { runs := [{ text := t, size := none }] } } := by
        simp [applyTextToShape, hov]
      rw [hres] at hp
      obtain ⟨t, ht, rfl⟩ := List.mem_map.mp hp
      have hreq : r = { text := t, size := none } := by simpa using hr
      subst hreq
      have hall : ∀ l ∈ safeShortenedLines rephrase lines policy,
          ¬ policy.max_chars_per_paragraph < l.length := by
        intro l hl hlt
        exact hov (List.any_eq_true.mpr ⟨l, hl, by simpa using hlt⟩)
      exact Nat.le_of_not_lt (hall t ht)

def overflowRephraseFail : Str → Nat → Option Str := fun _ _ => none

def overflowLines : List Str := [List.replicate 200 'a']

def defaultPolicy : OverflowPolicy := {}

theorem apply_text_overflow_witness :
    (∀ line : Str, defaultPolicy.max_chars_per_paragraph < line.length →
      overflowRephraseFail line defaultPolicy.max_chars_per_paragraph = none →
      shorten_line overflowRephraseFail line
        defaultPolicy.max_chars_per_paragraph =
        line.take defaultPolicy.max_chars_per_paragraph ∧
      (shorten_line overflowRephraseFail line
        defaultPolicy.max_chars_per_paragraph).length ≤
        defaultPolicy.max_chars_per_paragraph) ∧
    ((∀ p ∈ (applyTextToShape overflowRephraseFail overflowLines
        defaultPolicy).paragraphs,
        ∀ r ∈ p.runs, r.text.length ≤ defaultPolicy.max_chars_per_paragraph) ∨
      (∀ p ∈ (applyTextToShape overflowRephraseFail overflowLines
          defaultPolicy).paragraphs,
        ∀ r ∈ p.runs,
          r.size = some (max defaultPolicy.min_font_size_pt
            (18 - defaultPolicy.reduce_step_pt)) ∧
          defaultPolicy.min_font_size_pt ≤
            max defaultPolicy.min_font_size_pt
              (18 - defaultPolicy.reduce_step_pt) ∧
          max defaultPolicy.min_font_size_pt
            (18 - defaultPolicy.reduce_step_pt) < 18)) :=
  apply_text_overflow_mitigation overflowRephraseFail overflowLines
    defaultPolicy (by decide) (by decide)

inductive FigureType
  | image
  | chart
deriving Repr, DecidableEq

/-- The block model of models.py.  `has_header` of a table block and the
    per-line indent levels of a text block are carried verbatim. -/
inductive Block
  | text (shape_id : Str) (lines : List Str) (indent_levels : List Nat)
  | table (shape_id : Str) (rows : List (List Str)) (has_header : Bool)
  | figure (shape_id : Str) (figure_type : FigureType) (title : Option Str)
  | note (text : Str)
deriving Repr, DecidableEq

/-- `SlideDoc` (models.py lines 28-32). -/
structure SlideDoc where
  slide_index : Nat
  title : Str
  blocks : List Block
deriving Repr, DecidableEq

/-- `ExtractOptions` (options.py lines 7-13); the `figures` and `charts`
    enumerations are the literal strings the renderer compares against. -/
structure ExtractOptions where
  with_notes : Bool := false
  figures : Str := "placeholder".data
  charts : Str := "labels".data
  table_header : Bool := true
  slide_range : Option (List Nat) := none
deriving Repr, DecidableEq

/-- `_md_escape` (markdown.py lines 7-9). -/
def mdEscape (s : Str) : Str :=
  s.flatMap fun c => if c = '|' then ['\\', '|'] else [c]

def joinStr (sep : Str) (parts : List Str) : Str := List.intercalate sep parts

/-- The bullet lines produced for one `TextBlock` (markdown.py lines 15-23):
    each line is stripped, blank lines are dropped, and the indent level is
    `indent_levels[idx]` when the list is non-empty and `idx` is in range
    (`getD idx 0` coincides with that conditional). -/
def textBlockBullets (lines : List Str) (indent_levels : List Nat) : List Str :=
  lines.enum.filterMap fun pair =>
    let line := stripChars pair.2
    if line = [] then none
    else
      let level := if indent_levels ≠ [] ∧ pair.1 < indent_levels.length
        then indent_levels.getD pair.1 0 else 0
      some ((List.replicate level ("  ".data)).flatten ++ ("- ".data) ++ line)

/-- One pipe-delimited table row (markdown.py lines 31-34). -/
def tableRowLine (row : List Str) : Str :=
  ("| ".data) ++ joinStr (" | ".data) (row.map mdEscape) ++ (" |".data)

/-- The list entries appended for one block by `blocks_to_markdown`
    (markdown.py lines 14-50), including the empty separator line appended
    after text, figure and note blocks and after a non-empty table. -/
def blockLines (options : ExtractOptions) : Block → List Str
  | .text _ lines indent_levels => textBlockBullets lines indent_levels ++ [[]]
  | .table _ rows has_header =>
    if rows = [] then []
    else if has_header then
      [tableRowLine (rows.headD []),
       ("| ".data) ++
         joinStr (" | ".data)
           (List.replicate (rows.headD []).length ("---".data)) ++
         (" |".data)] ++
        (rows.tail.map tableRowLine) ++ [[]]
    else rows.map tableRowLine ++ [[]]
  | .figure _ ft title =>
    (match ft with
     | .image =>
       if options.figures = "placeholder".data then
         [("[Figure: ".data) ++ title.getD ("Image".data) ++ ("]".data)]
       else []
     | .chart =>
       if options.charts = "labels".data then
         [("[Figure: Chart, title=\"".data) ++ title.getD ("Chart".data) ++
           ("\"]".data)]
       else if options.figures = "placeholder".data then
         [("[Figure: Chart]".data)]
       else []) ++ [[]]
  | .note t =>
    [("> NOTE: ".data) ++
      stripChars (t.map fun c => if c = '\n' then ' ' else c)] ++ [[]]

/-- `blocks_to_markdown` (markdown.py lines 12-51):
    `"\n".join(lines).strip() + "\n"`. -/
def blocks_to_markdown (blocks : List Block) (options : ExtractOptions) : Str :=
  stripChars (joinStr ['\n'] (blocks.flatMap (blockLines options))) ++ ['\n']

/-- `docs_to_markdown` (markdown.py lines 54-61). -/
def docs_to_markdown (docs : List SlideDoc) (options : ExtractOptions) : Str :=
  rstripChars (joinStr ['\n']
    (docs.flatMap fun doc =>
      [("## Slide ".data) ++ (Nat.repr (doc.slide_index + 1)).data ++
        (" - ".data) ++ doc.title,
       [],
       rstripChars (blocks_to_markdown doc.blocks options),
       []])) ++ ['\n']

/-- The slide document of the concrete rendering scenario of the claim. -/
def q3Doc : SlideDoc :=
  { slide_index := 0
    title := "Q3 Results".data
    blocks :=
      [.text ("s1".data)
        ["Revenue up 20%".data, "  - driven by APAC".data] [0, 1],
       .table ("s2".data)
        [["Region".data, "Revenue".data], ["APAC".data, "20%".data]] true] }

def defaultOptions : ExtractOptions := {}

/-- The Markdown output the claim asserts for the scenario. -/
def q3Claimed : Str :=
  ("## Slide 1 - Q3 Results\n\n- Revenue up 20%\n  - driven by APAC\n\n" ++
    "| Region | Revenue |\n| --- | --- |\n| APAC | 20% |\n").data

/-- The Markdown the code actually produces for the scenario: the renderer
    strips each line before prepending the bullet dash, so the literal
    leading dash of the second input line is duplicated. -/
def q3Actual : Str :=
  ("## Slide 1 - Q3 Results\n\n- Revenue up 20%\n  - - driven by APAC\n\n" ++
    "| Region | Revenue |\n| --- | --- |\n| APAC | 20% |\n").data

/-- C6 counterexample: the rendered Markdown of the scenario differs from the
    output asserted by the claim. -/
theorem docs_markdown_counterexample :
    docs_to_markdown [q3Doc] defaultOptions ≠ q3Claimed := by decide

/-- C6 (amended): the scenario renders with the second bullet reading
    `- - driven by APAC` (bullet dash prepended to the stripped line that
    already starts with a dash); everything else is as claimed. -/
theorem docs_markdown_q3_scenario :
    docs_to_markdown [q3Doc] defaultOptions = q3Actual := by decide

/-- The title placeholder `prs_slide.shapes.title` as read by `extract_slide`
    (extract.py lines 45-47): `has_text_frame` and its text. -/
structure TitleShapeView where
  has_text_frame : Bool
  text : Str
deriving Repr, DecidableEq

/-- One paragraph of a text frame: its run texts and its indent level
    (`paragraph.level or 0`: both a missing and a zero level give 0). -/
structure ParagraphView where
  runs : List Str
  level : Nat
deriving Repr, DecidableEq

structure TextFrameView where
  paragraphs : List ParagraphView
deriving Repr, DecidableEq

/-- Shape kinds distinguished by extract.py; the title fallback loop only
    tests for `MSO_SHAPE_TYPE.TEXT_BOX`. -/
inductive ShapeKindView
  | textbox
  | table
  | picture
  | chart
  | autoshape
deriving Repr, DecidableEq

structure ShapeView where
  shape_id : Nat
  kind : ShapeKindView
  text_frame : Option TextFrameView
deriving Repr, DecidableEq

/-- A shape collection entry: a leaf shape or a group of nested shapes. -/
inductive ShapeTreeNode
  | leaf (s : ShapeView)
  | group (children : List ShapeTreeNode)

mutual
/-- `_iter_shapes` (extract.py lines 15-21): depth-first flattening that
    descends transparently into group shapes. -/
def flattenShape : ShapeTreeNode → List ShapeView
  | .leaf s => [s]
  | .group cs => flattenShapes cs
def flattenShapes : List ShapeTreeNode → List ShapeView
  | [] => []
  | n :: rest => flattenShape n ++ flattenShapes rest
end

/-- The slide as seen by the title-resolution part of `extract_slide`. -/
structure SlideView where
  title_shape : Option TitleShapeView
  shapes : List ShapeTreeNode

/-- `_shape_text_lines` (extract.py lines 24-31): one entry per paragraph,
    the concatenation of its run texts; empty for a missing text frame. -/
def shapeTextLines (s : ShapeView) : List Str :=
  match s.text_frame with
  | none => []
  | some tf => tf.paragraphs.map fun p => p.runs.flatten

/-- Step 1 of title resolution (extract.py lines 45-47):
    `title = prs_slide.shapes.title.text.strip() or None` when the
    placeholder exists and has a text frame. -/
def titleFromPlaceholder (slide : SlideView) : Option Str :=
  match slide.title_shape with
  | some ts =>
    if ts.has_text_frame then
      if stripChars ts.text = [] then none else some (stripChars ts.text)
    else none
  | none => none

/-- Step 2, the fallback loop (extract.py lines 48-55): the first TEXT_BOX
    shape with a text frame whose line list is non-empty supplies
    `lines[0].strip()` — possibly the empty string — and the loop breaks. -/
def titleFallbackLoop : List ShapeView → Option Str
  | [] => none
  | s :: rest =>
    if s.kind = ShapeKindView.textbox ∧ s.text_frame ≠ none then
      match shapeTextLines s with
      | [] => titleFallbackLoop rest
      | l :: _ => some (stripChars l)
    else titleFallbackLoop rest

/-- Title resolution of `extract_slide` (extract.py lines 43-57). -/
def extractSlideTitle (slide : SlideView) (slide_index : Nat) : Str :=
  match titleFromPlaceholder slide with
  | some t => t
  | none =>
    match titleFallbackLoop (flattenShapes slide.shapes) with
    | some t => t
    | none => ("Slide ".data) ++ (Nat.repr (slide_index + 1)).data

/-- The shape the fallback loop stops at. -/
def fallbackCandidate (s : ShapeView) : Bool :=
  decide (s.kind = ShapeKindView.textbox ∧ s.text_frame ≠ none ∧
    shapeTextLines s ≠ [])

theorem titleFallbackLoop_eq_find (shapes : List ShapeView) :
    titleFallbackLoop shapes =
      (shapes.find? fallbackCandidate).map
        fun s => stripChars ((shapeTextLines s).headD []) := by
  induction shapes with
  | nil => rfl
  | cons s rest ih =>
    by_cases h1 : s.kind = ShapeKindView.textbox ∧ s.text_frame ≠ none
    · rcases hl : shapeTextLines s with _ | ⟨l, ls⟩
      · have hpred : ¬ (fallbackCandidate s = true) := by
          simp [fallbackCandidate, hl]
        rw [List.find?_cons_of_neg _ hpred]
        simpa [titleFallbackLoop, h1, hl] using ih
      · have hpred : fallbackCandidate s = true := by
          simp [fallbackCandidate, hl, h1.1, h1.2]
        rw [List.find?_cons_of_pos _ hpred]
        simp [titleFallbackLoop, h1, hl]
    · have hpred : ¬ (fallbackCandidate s = true) := by
        simp only [fallbackCandidate, decide_eq_true_eq]
        intro hc
        exact h1 ⟨hc.1, hc.2.1⟩
      rw [List.find?_cons_of_neg _ hpred]
      simpa [titleFallbackLoop, h1] using ih

/-- A slide without a title placeholder whose only text box has a blank
    first line and a second line reading `Hello`. -/
def blankFirstLineSlide : SlideView :=
  ⟨none, [.leaf ⟨7, .textbox, some ⟨[⟨[], 0⟩, ⟨["Hello".data], 0⟩]⟩⟩]⟩

/-- C7 counterexample: on a slide whose first text box starts with a blank
    line followed by `Hello`, the code takes `lines[0].strip()` and the title
    becomes the empty string — neither the first non-empty line `Hello` nor
    the synthesized `Slide 1`. -/
theorem extract_title_counterexample :
    extractSlideTitle blankFirstLineSlide 0 = [] ∧
    extractSlideTitle blankFirstLineSlide 0 ≠ ("Hello".data) ∧
    extractSlideTitle blankFirstLineSlide 0 ≠ ("Slide 1".data) := by
  have hflat : flattenShapes blankFirstLineSlide.shapes =
      [⟨7, .textbox, some ⟨[⟨[], 0⟩, ⟨["Hello".data], 0⟩]⟩⟩] := by
    simp [blankFirstLineSlide, flattenShapes, flattenShape]
  have h : extractSlideTitle blankFirstLineSlide 0 = [] := by
    unfold extractSlideTitle
    rw [hflat]
    decide
  exact ⟨h, by rw [h]; decide, by rw [h]; decide⟩

/-- C7 (amended): the title is the stripped placeholder text when non-empty;
    otherwise the stripped FIRST line (possibly empty) of the first text-box
    shape that has a text frame with at least one line; `Slide {n}` only when
    neither a placeholder candidate nor such a text box exists. -/
theorem extract_title_resolution (slide : SlideView) (n : Nat) :
    (∀ t : Str, titleFromPlaceholder slide = some t →
      extractSlideTitle slide n = t) ∧
    (titleFromPlaceholder slide = none →
      ∀ s : ShapeView,
        (flattenShapes slide.shapes).find? fallbackCandidate = some s →
        extractSlideTitle slide n = stripChars ((shapeTextLines s).headD [])) ∧
    (titleFromPlaceholder slide = none →
      (flattenShapes slide.shapes).find? fallbackCandidate = none →
      extractSlideTitle slide n = ("Slide ".data) ++ (Nat.repr (n + 1)).data) := by
  refine ⟨?_, ?_, ?_⟩
  · intro t ht
    simp [extractSlideTitle, ht]
  · intro hnone s hfind
    simp [extractSlideTitle, hnone, titleFallbackLoop_eq_find, hfind]
  · intro hnone hfind
    simp [extractSlideTitle, hnone, titleFallbackLoop_eq_find, hfind]

/-- A slide whose placeholder carries the padded text ` T `. -/
def paddedTitleSlide : SlideView :=
  ⟨some ⟨true, " T ".data⟩, []⟩

def emptySlideView : SlideView := ⟨none, []⟩

theorem extract_title_resolution_witness :
    extractSlideTitle paddedTitleSlide 0 = ("T".data) ∧
    extractSlideTitle emptySlideView 0 =
      ("Slide ".data) ++ (Nat.repr (0 + 1)).data :=
  ⟨(extract_title_resolution paddedTitleSlide 0).1 ("T".data) (by decide),
   (extract_title_resolution emptySlideView 0).2.2 (by decide)
     (by simp [emptySlideView, flattenShapes])⟩

instance {ε α : Type} [DecidableEq ε] [DecidableEq α] :
    DecidableEq (Except ε α) := fun a b =>
  match a, b with
  | .error e1, .error e2 =>
    decidable_of_iff (e1 = e2) ⟨fun h => h ▸ rfl, fun h => by injection h⟩
  | .error _, .ok _ => isFalse fun h => Except.noConfusion h
  | .ok _, .error _ => isFalse fun h => Except.noConfusion h
  | .ok v1, .ok v2 =>
    decidable_of_iff (v1 = v2) ⟨fun h => h ▸ rfl, fun h => by injection h⟩

/-- `font.color` as probed by `_extract_font_properties`
    (ppt_generator.py lines 44-50): the `rgb` and `theme_color` attribute
    reads may each fail (python-pptx raises when the colour is of another
    type; the `hasattr` guard turns that into a skipped branch).  The RGB
    value is its integer rendering, so the truthiness test is `≠ 0`. -/
structure ColorView where
  rgb : Except Unit (Option Nat)
  theme_color : Except Unit (Option Nat)
deriving DecidableEq

/-- The fallible property reads `_extract_font_properties` performs on the
    first run's font: each read either yields the (possibly absent) value or
    raises. -/
structure RunView where
  name : Except Unit (Option Str)
  size : Except Unit (Option Nat)
  bold : Except Unit (Option Bool)
  italic : Except Unit (Option Bool)
  underline : Except Unit (Option Bool)
  color : Except Unit (Option ColorView)
deriving DecidableEq

inductive ColorInfo
  | rgb (v : Nat)
  | theme (v : Nat)
deriving Repr, DecidableEq

/-- FontFingerprint (the dictionary built on ppt_generator.py lines 52-59). -/
structure FontFingerprint where
  name : Option Str
  size : Option Nat
  bold : Option Bool
  italic : Option Bool
  underline : Option Bool
  color : Option ColorInfo
deriving DecidableEq

/-- The theme-colour `elif` branch (ppt_generator.py line 47). -/
def themeBranch (cv : ColorView) : Option ColorInfo :=
  match cv.theme_color with
  | .ok (some t) => some (.theme t)
  | _ => none

/-- The guarded colour cascade of `_extract_font_properties`
    (ppt_generator.py lines 43-50): RGB first (attribute present and value
    truthy), else theme colour, else `None`; any failure yields `None`. -/
def captureColor (run : RunView) : Option ColorInfo :=
  match run.color with
  | .error _ => none
  | .ok none => none
  | .ok (some cv) =>
    match cv.rgb with
    | .ok (some v) => if v ≠ 0 then some (.rgb v) else themeBranch cv
    | _ => themeBranch cv

/-- `_extract_font_properties` (ppt_generator.py lines 38-59, identical in
    reinsert_v2.py lines 31-52): the colour block is guarded, but the five
    direct reads `font.name/size/bold/italic/underline` are not — a failure
    there propagates out of the function (the dictionary literal evaluates
    them in order, after the colour block). -/
def extractFontProperties (run : RunView) : Except Unit FontFingerprint :=
  let colorInfo := captureColor run
  match run.name with
  | .error e => .error e
  | .ok nm =>
    match run.size with
    | .error e => .error e
    | .ok sz =>
      match run.bold with
      | .error e => .error e
      | .ok b =>
        match run.italic with
        | .error e => .error e
        | .ok it =>
          match run.underline with
          | .error e => .error e
          | .ok u =>
            .ok { name := nm, size := sz, bold := b, italic := it,
                  underline := u, color := colorInfo }

def isAbort {α : Type} (e : Except Unit α) : Bool :=
  match e with
  | .error _ => true
  | .ok _ => false

/-- A run whose `name` read raises while every other read succeeds. -/
def badNameRun : RunView :=
  { name := .error ()
    size := .ok none
    bold := .ok none
    italic := .ok none
    underline := .ok none
    color := .ok none }

/-- C8 counterexample: a failing `name` read aborts the whole capture instead
    of omitting the property — the fingerprint the claim expects is never
    produced. -/
theorem capture_abort_counterexample :
    isAbort (extractFontProperties badNameRun) = true ∧
    extractFontProperties badNameRun ≠
      .ok { name := none, size := none, bold := none, italic := none,
            underline := none, color := none } := by decide

/-- C8 (amended): capture aborts exactly when one of the five unguarded
    reads (name, size, bold, italic, underline) fails; when they all succeed
    the fingerprint carries their values plus the colour resolved by the
    guarded cascade — explicit RGB first (attribute present, value nonzero),
    else theme colour when present, else none, with colour failures merely
    omitting the colour. -/
theorem capture_font_properties_spec (run : RunView) :
    (isAbort (extractFontProperties run) = false ↔
      isAbort run.name = false ∧ isAbort run.size = false ∧
      isAbort run.bold = false ∧ isAbort run.italic = false ∧
      isAbort run.underline = false) ∧
    (∀ nm sz b it u, run.name = .ok nm → run.size = .ok sz →
      run.bold = .ok b → run.italic = .ok it → run.underline = .ok u →
      extractFontProperties run =
        .ok { name := nm, size := sz, bold := b, italic := it,
              underline := u, color := captureColor run }) ∧
    (∀ cv v, run.color = .ok (some cv) → cv.rgb = .ok (some v) → v ≠ 0 →
      captureColor run = some (.rgb v)) ∧
    (∀ cv t, run.color = .ok (some cv) → cv.rgb = .ok none →
      cv.theme_color = .ok (some t) → captureColor run = some (.theme t)) ∧
    (∀ cv t, run.color = .ok (some cv) → cv.rgb = .error () →
      cv.theme_color = .ok (some t) → captureColor run = some (.theme t)) ∧
    (isAbort run.color = true → captureColor run = none) := by
  refine ⟨?_, ?_, ?_, ?_, ?_, ?_⟩
  · obtain ⟨nm, sz, b, it, u, c⟩ := run
    cases nm <;> cases sz <;> cases b <;> cases it <;> cases u <;>
      simp [extractFontProperties, isAbort]
  · intro nm2 sz2 b2 it2 u2 h1 h2 h3 h4 h5
    simp [extractFontProperties, h1, h2, h3, h4, h5]
  · intro cv v hc hr hv
    simp [captureColor, hc, hr, hv]
  · intro cv t hc hr ht
    simp [captureColor, hc, hr, themeBranch, ht]
  · intro cv t hc hr ht
    simp [captureColor, hc, hr, themeBranch, ht]
  · intro hc
    rcases hcc : run.color with e | v
    · simp [captureColor, hcc]
    · rw [hcc] at hc
      simp [isAbort] at hc

/-- A run with all direct reads succeeding and an RGB colour. -/
def rgbRun : RunView :=
  { name := .ok (some ("Arial".data))
    size := .ok (some 24)
    bold := .ok (some true)
    italic := .ok (some false)
    underline := .ok none
    color := .ok (some { rgb := .ok (some 255), theme_color := .ok none }) }

theorem capture_font_properties_witness :
    extractFontProperties rgbRun =
      .ok { name := some ("Arial".data), size := some 24, bold := some true,
            italic := some false, underline := none,
            color := captureColor rgbRun } :=
  (capture_font_properties_spec rgbRun).2.1 (some ("Arial".data)) (some 24)
    (some true) (some false) none rfl rfl rfl rfl rfl

/-- A decoded image as far as `_recompress_blob` inspects it: its reported
    format (`im.format`, possibly absent) and its pixel dimensions. -/
structure ImageView where
  format : Option Str
  width : Nat
  height : Nat
deriving Repr, DecidableEq

/-- The external Pillow operations used by `_recompress_blob`
    (ppt_generator.py lines 133-159), as oracles.  `decode` returning `none`
    models any exception from `Image.open`/`load`; the encoders return
    `none` when saving raises.  The float scale of `_downscale_image` is
    modelled with natural floor division; the claims do not depend on the
    scaled dimensions. -/
structure ImageCodec where
  decode : List Nat → Option ImageView
  exifTranspose : ImageView → ImageView
  resize : ImageView → Nat × Nat → ImageView
  convertRGB : ImageView → ImageView
  encodeJpeg : ImageView → Int → Option (List Nat)
  encodePng : ImageView → Option (List Nat)

/-- `_downscale_image` (ppt_generator.py lines 120-130). -/
def downscaleImage (codec : ImageCodec) (img : ImageView) (maxPx : Nat) :
    ImageView :=
  if maxPx = 0 then img
  else
    let longest := max img.width img.height
    if longest ≤ maxPx then img
    else
      codec.resize img
        (max 1 ((img.width * maxPx) / longest),
         max 1 ((img.height * maxPx) / longest))

/-- `(im.format or "PNG").upper()` (ppt_generator.py line 141). -/
def lowerUpperFmt (fmt : Option Str) : Str :=
  (fmt.getD ("PNG".data)).map Char.toUpper

/-- `_recompress_blob` (ppt_generator.py lines 133-159): decode, correct
    orientation, downscale, re-encode JPEG (quality clamped to 10..95,
    baseline) or PNG (format defaulting to PNG when unreported), return the
    bytes only when strictly smaller than the input, else `None`; any other
    format, and any exception, yields `None`. -/
def recompressBlob (codec : ImageCodec) (original : List Nat)
    (quality : Int) (maxPx : Nat) : Option (List Nat) :=
  match codec.decode original with
  | none => none
  | some im0 =>
    let im := codec.exifTranspose im0
    let fmt := lowerUpperFmt im.format
    let im2 := downscaleImage codec im maxPx
    let data? : Option (List Nat) :=
      if fmt = ("JPEG".data) ∨ fmt = ("JPG".data) then
        codec.encodeJpeg (codec.convertRGB im2) (max 10 (min 95 quality))
      else if fmt = ("PNG".data) then
        codec.encodePng im2
      else none
    match data? with
    | none => none
    | some data => if data.length < original.length then some data else none

/-- C9: `_recompress_blob` returns bytes only when they are strictly smaller
    than the input, and returns `None` whenever the decoded image's
    normalised format is not in the JPEG/JPG/PNG family. -/
theorem recompress_blob_spec (codec : ImageCodec) (original : List Nat)
    (quality : Int) (maxPx : Nat) :
    (∀ out : List Nat,
      recompressBlob codec original quality maxPx = some out →
      out.length < original.length) ∧
    (∀ im : ImageView, codec.decode original = some im →
      lowerUpperFmt (codec.exifTranspose im).format ≠ ("JPEG".data) →
      lowerUpperFmt (codec.exifTranspose im).format ≠ ("JPG".data) →
      lowerUpperFmt (codec.exifTranspose im).format ≠ ("PNG".data) →
      recompressBlob codec original quality maxPx = none) := by
  constructor
  · intro out hout
    unfold recompressBlob at hout
    rcases hdec : codec.decode original with _ | im
    · rw [hdec] at hout; exact absurd hout (by simp)
    · rw [hdec] at hout
      simp only at hout
      rcases henc : (if lowerUpperFmt (codec.exifTranspose im).format = ("JPEG".data) ∨
            lowerUpperFmt (codec.exifTranspose im).format = ("JPG".data) then
          codec.encodeJpeg
            (codec.convertRGB (downscaleImage codec (codec.exifTranspose im) maxPx))
            (max 10 (min 95 quality))
        else if lowerUpperFmt (codec.exifTranspose im).format = ("PNG".data) then
          codec.encodePng (downscaleImage codec (codec.exifTranspose im) maxPx)
        else none) with _ | data
      · rw [henc] at hout
        exact absurd hout (by simp)
      · rw [henc] at hout
        by_cases hlt : data.length < original.length
        · simp only [hlt, if_true] at hout
          rw [← Option.some.inj hout]
          exact hlt
        · simp [hlt] at hout
  · intro im hdec h1 h2 h3
    unfold recompressBlob
    rw [hdec]
    simp [h1, h2, h3]

/-- A codec whose decode reports a GIF image; used to instantiate C9. -/
def gifCodec : ImageCodec :=
  { decode := fun _ => some { format := some ("gif".data), width := 4, height := 4 }
    exifTranspose := id
    resize := fun im _ => im
    convertRGB := id
    encodeJpeg := fun _ _ => some []
    encodePng := fun _ => some [] }

theorem recompress_blob_witness :
    recompressBlob gifCodec [1, 2, 3] 70 1920 = none :=
  (recompress_blob_spec gifCodec [1, 2, 3] 70 1920).2
    { format := some ("gif".data), width := 4, height := 4 }
    rfl (by decide) (by decide) (by decide)

def startsWithChars (l unit : Str) : Bool := unit.isPrefixOf l

def endsWithChars (l unit : Str) : Bool := unit.isSuffixOf l

/-- The media test of `optimize_pptx_media_zip` (ppt_generator.py lines
    325-330): name starts with `ppt/media/` (original case) and its
    lowercasing ends in `.jpg`, `.jpeg` or `.png`. -/
def isMediaName (name : Str) : Bool :=
  startsWithChars name ("ppt/media/".data) &&
    (endsWithChars (lowerChars name) (".jpg".data) ||
     endsWithChars (lowerChars name) (".jpeg".data) ||
     endsWithChars (lowerChars name) (".png".data))

/-- The per-entry body of `optimize_pptx_media_zip` (ppt_generator.py lines
    327-351): media entries are recompressed and replaced only when the new
    blob is non-empty and strictly smaller (`if new_blob and len(new_blob) <
    len(data)`); a recompression exception keeps the original bytes; every
    other entry is copied verbatim.  `recomp` returning `.error` models the
    `except` branch of lines 347-349. -/
def optimizeEntry (recomp : List Nat → Except Unit (Option (List Nat)))
    (entry : Str × List Nat) : Str × List Nat :=
  if isMediaName entry.1 then
    match recomp entry.2 with
    | .error _ => (entry.1, entry.2)
    | .ok newBlob =>
      match newBlob with
      | some nb =>
        if nb ≠ [] ∧ nb.length < entry.2.length then (entry.1, nb)
        else (entry.1, entry.2)
      | none => (entry.1, entry.2)
  else (entry.1, entry.2)

/-- `optimize_pptx_media_zip` (ppt_generator.py lines 304-352): one output
    entry per input entry, written in enumeration order. -/
def optimizeMediaZip (recomp : List Nat → Except Unit (Option (List Nat)))
    (entries : List (Str × List Nat)) : List (Str × List Nat) :=
  entries.map (optimizeEntry recomp)

/-- C10: the rewritten archive has exactly one output entry per input entry
    in order, with the same names; non-media entries keep their bytes
    verbatim; media entries keep their bytes or shrink strictly; and a
    recompression error keeps the original bytes. -/
theorem optimize_media_zip_spec
    (recomp : List Nat → Except Unit (Option (List Nat)))
    (entries : List (Str × List Nat)) :
    (optimizeMediaZip recomp entries).length = entries.length ∧
    ∀ i : Nat, i < entries.length →
      ((optimizeMediaZip recomp entries).getD i ([], [])).1 =
        (entries.getD i ([], [])).1 ∧
      (isMediaName (entries.getD i ([], [])).1 = false →
        ((optimizeMediaZip recomp entries).getD i ([], [])).2 =
          (entries.getD i ([], [])).2) ∧
      (((optimizeMediaZip recomp entries).getD i ([], [])).2 =
          (entries.getD i ([], [])).2 ∨
        ((optimizeMediaZip recomp entries).getD i ([], [])).2.length <
          (entries.getD i ([], [])).2.length) ∧
      (recomp (entries.getD i ([], [])).2 = .error () →
        ((optimizeMediaZip recomp entries).getD i ([], [])).2 =
          (entries.getD i ([], [])).2) := by
  constructor
  · simp [optimizeMediaZip]
  · intro i hi
    have hgd : (optimizeMediaZip recomp entries).getD i ([], []) =
        optimizeEntry recomp (entries.getD i ([], [])) := by
      unfold optimizeMediaZip
      rw [getD_map_of_lt (optimizeEntry recomp) entries hi ([], []) ([], [])]
    rw [hgd]
    set e := entries.getD i ([], []) with he
    by_cases hm : isMediaName e.1
    · rcases hr : recomp e.2 with u | newBlob
      · cases u
        refine ⟨?_, ?_, ?_, ?_⟩ <;> simp [optimizeEntry, hm, hr]
      · refine ⟨?_, ?_, ?_, ?_⟩
        · rcases newBlob with _ | nb
          · simp [optimizeEntry, hm, hr]
          · by_cases hc : nb ≠ [] ∧ nb.length < e.2.length
            · simp [optimizeEntry, hm, hr, hc]
            · simp [optimizeEntry, hm, hr, hc]
        · intro hmf
          exact absurd hmf (by simp [hm])
        · rcases newBlob with _ | nb
          · left; simp [optimizeEntry, hm, hr]
          · by_cases hc : nb ≠ [] ∧ nb.length < e.2.length
            · right
              have : optimizeEntry recomp e = (e.1, nb) := by
                simp [optimizeEntry, hm, hr, hc]
              rw [this]
              exact hc.2
            · left; simp [optimizeEntry, hm, hr, hc]
        · intro hre
          exact absurd hre (by simp)
    · refine ⟨?_, ?_, ?_, ?_⟩ <;> simp [optimizeEntry, hm]

def failingRecomp : List Nat → Except Unit (Option (List Nat)) :=
  fun _ => .error ()

theorem optimize_media_zip_witness :
    (optimizeMediaZip failingRecomp
      [(("ppt/media/image1.PNG".data), [9, 9, 9]),
       (("ppt/slides/slide1.xml".data), [1, 2])]).length = 2 ∧
    ((optimizeMediaZip failingRecomp
      [(("ppt/media/image1.PNG".data), [9, 9, 9]),
       (("ppt/slides/slide1.xml".data), [1, 2])]).getD 0 ([], [])).1 =
      ("ppt/media/image1.PNG".data) ∧
    ((optimizeMediaZip failingRecomp
      [(("ppt/media/image1.PNG".data), [9, 9, 9]),
       (("ppt/slides/slide1.xml".data), [1, 2])]).getD 0 ([], [])).2 =
      [9, 9, 9] ∧
    ((optimizeMediaZip failingRecomp
      [(("ppt/media/image1.PNG".data), [9, 9, 9]),
       (("ppt/slides/slide1.xml".data), [1, 2])]).getD 1 ([], [])).2 =
      [1, 2] := by
  have h := optimize_media_zip_spec failingRecomp
    [(("ppt/media/image1.PNG".data), [9, 9, 9]),
     (("ppt/slides/slide1.xml".data), [1, 2])]
  refine ⟨h.1, (h.2 0 (by decide)).1.trans (by decide),
    ((h.2 0 (by decide)).2.2.2 rfl).trans (by decide),
    ((h.2 1 (by decide)).2.1 (by decide)).trans (by decide)⟩
